import Mathlib

/-
Verification of the VMOnSTM32 ARMv7 interpreter.

This file is a shallow embedding of the interpreter's Rust sources
(arithmetic.rs, cpu.rs, machine.rs, memory.rs, protocol.rs, executor.rs)
into Lean, together with theorems settling the specification claims.

Machine integers are modelled as `Nat` values below 2^32 (u32), with
wrap-around written explicitly.  Rust arithmetic follows the release
profile that the STM32 firmware is built with: `+`, `-`, `*` wrap, and a
shift amount of 32 or more is masked to its low five bits (under debug
assertions the same operations panic; where this distinction decides a
claim it is called out at the theorem).  Rust panics
(`unimplemented!()`, `unreachable!()`) are modelled as error values of
the `Except` monad, alongside the source's own `VMError` variants.
-/

namespace VM

/-- The modulus of u32 arithmetic, 2^32. -/
def U32LIM : Nat := 4294967296

/-- Wrapping u32 addition (Rust release-profile `+` on u32). -/
def wadd (a b : Nat) : Nat := (a + b) % U32LIM

/-- Wrapping u32 subtraction (Rust release-profile `-` on u32). -/
def wsub (a b : Nat) : Nat := (a + U32LIM - b % U32LIM) % U32LIM

/-- Rust `!` on u32: bitwise complement of the truncated value. -/
def unot (a : Nat) : Nat := (U32LIM - 1) - a % U32LIM

/-- Rust `<<` on u32 in release mode: the shift amount is masked to its
low five bits and the result wraps to 32 bits. -/
def rustShl32 (v n : Nat) : Nat := (v <<< (n % 32)) % U32LIM

/-- Rust `>>` on u32 in release mode: the shift amount is masked to its
low five bits. -/
def rustShr32 (v n : Nat) : Nat := (v % U32LIM) >>> (n % 32)

/-- The signed (two's-complement i32) reading of a u32 value. -/
def toI32 (x : Nat) : Int :=
  if x % U32LIM < 2147483648 then ((x % U32LIM : Nat) : Int)
  else ((x % U32LIM : Nat) : Int) - 4294967296

/-- Reinterpret an integer as a u32 (`as u32` on i32). -/
def intToU32 (z : Int) : Nat := (Int.emod z 4294967296).toNat

/-- Wrapping i32 arithmetic (Rust release-profile ops on i32). -/
def wrapI32 (z : Int) : Int :=
  Int.emod (z + 2147483648) 4294967296 - 2147483648

/- ------------------------------------------------------------------
arithmetic.rs
------------------------------------------------------------------ -/

/-- arithmetic.rs: the `Shift` enum.  Register indices come from the
decoder and are in range, hence `Fin 16`. -/
inductive Shift
  | LogicLeft (amount : Nat)
  | LogicRight (amount : Nat)
  | ArithRight (amount : Nat)
  | RotateRight (amount : Nat)
  | RotateRightExtend
  | RegLogicLeft (reg_index : Fin 16)
  | RegLogicRight (reg_index : Fin 16)
  | RegArithRight (reg_index : Fin 16)
  | RegRotateRight (reg_index : Fin 16)
  deriving DecidableEq

/-- arithmetic.rs `Shift::decode`.  The `r#type` byte of a decoded
instruction is matched against 0b00..0b11; any other value hits
`unreachable!()`, modelled as `none`. -/
def Shift.decode (ty : Nat) (imm5 : Nat) : Option Shift :=
  match ty with
  | 0 => some (Shift.LogicLeft imm5)
  | 1 => some (Shift.LogicRight (if imm5 &&& 31 = 0 then 32 else imm5))
  | 2 => some (Shift.ArithRight (if imm5 &&& 31 = 0 then 32 else imm5))
  | 3 =>
    if imm5 &&& 31 = 0 then some Shift.RotateRightExtend
    else some (Shift.RotateRight imm5)
  | _ => none

/-- arithmetic.rs `Machine::logic_left_c` (the method does not read
`self`).  Note the `shift == 0` arm returns a `false` carry. -/
def logic_left_c (value shift : Nat) : Nat × Bool :=
  if shift = 0 then (value, false)
  else (rustShl32 value shift,
        rustShr32 (rustShl32 value (shift - 1)) 31 &&& 1 = 1)

/-- arithmetic.rs `Machine::logic_right_c`.  For `shift = 32` (produced
by `Shift::decode` from `imm5 = 0`) the source computes `value >> 32`,
whose amount overflows u32 shifting; the release-mode masking keeps
`value` unchanged. -/
def logic_right_c (value shift : Nat) : Nat × Bool :=
  if shift = 0 then (value, false)
  else (rustShr32 value shift, rustShr32 value (shift - 1) &&& 1 = 1)

/-- arithmetic.rs `Machine::arith_right_c`. -/
def arith_right_c (value shift : Nat) : Nat × Bool :=
  if shift = 0 then (value, false)
  else (intToU32 (Int.ediv (toI32 value) (2 ^ (shift % 32))),
        rustShr32 value (shift - 1) &&& 1 = 1)

/-- arithmetic.rs `Machine::rotate_right_c`. -/
def rotate_right_c (value shift : Nat) : Nat × Bool :=
  if shift = 0 then (value, false)
  else
    let s := shift % 32
    let result := rustShr32 value s ||| rustShl32 value (32 - s)
    (result, result >>> 31 &&& 1 = 1)

/-- arithmetic.rs `Machine::rotate_right` (value part only). -/
def rotate_right (value shift : Nat) : Nat := (rotate_right_c value shift).1

/-- arithmetic.rs `Machine::rotate_right_extend_c` (RRX). -/
def rotate_right_extend_c (value : Nat) (carry_in : Bool) : Nat × Bool :=
  ((carry_in.toNat <<< 31) ||| (value % U32LIM) >>> 1, value &&& 1 = 1)

/-- arithmetic.rs `Machine::add_with_carry`.  The source computes the
wrapped u32 sum, then masks off bit 31 (`unsigned_sum & !(1 << 31)`,
commented "keep the low 31 bits") and derives carry and overflow by
comparing against that masked result. -/
def add_with_carry (x y : Nat) (carry_in : Bool) : Nat × Bool × Bool :=
  let unsigned_sum := (x % U32LIM + y % U32LIM + carry_in.toNat) % U32LIM
  let signed_num := wrapI32 (toI32 x + toI32 y + carry_in.toNat)
  let result := unsigned_sum &&& 2147483647
  let carry_out := decide (result ≠ unsigned_sum)
  let overflow := decide (toI32 result ≠ signed_num)
  (result, carry_out, overflow)

/- ------------------------------------------------------------------
cpu.rs
------------------------------------------------------------------ -/

/-- cpu.rs: bit i of a 32-bit status word. -/
def getFlag (word i : Nat) : Bool := word.testBit i

/-- Write one bit of a 32-bit word (the `bitfield` setters). -/
def setBit32 (x i : Nat) (b : Bool) : Nat :=
  if b then x ||| (1 <<< i) else x &&& ((U32LIM - 1) ^^^ (1 <<< i))

/-- cpu.rs `CPU::apsr`: the CPSR masked down to N/Z/C/V/Q and GE[3:0]. -/
def apsrView (cpsr : Nat) : Nat := cpsr &&& 0b11111000000001111000000000000000

/-- cpu.rs `InstrSet`. -/
inductive InstrSet | Arm | Thumb | Jazelle | ThumbEE
  deriving DecidableEq

/-- cpu.rs: default CPSR (`CPSRegister::default`): supervisor mode
M = 0b10011, A/I/F masks set, J = T = E = 0. -/
def defaultCPSR : Nat := 0b10011 ||| (1 <<< 7) ||| (1 <<< 6) ||| (1 <<< 8)

/-- machine.rs: the machine state.  `mem` holds the local byte array of
memory.rs (`data: [u8; INTERNAL_SIZE]`).  `remote` is modelled from the
spec: it is the host memory behind the serial protocol of protocol.rs,
which §4.4/§6 describe as a byte store addressed by the offset carried
in READ_MEMORY/WRITE_MEMORY frames; the serial link itself (serial.rs,
hardware I/O) is assumed to succeed.  `spsr` is modelled from the spec
(§3: "A separate SPSR word exists"): the `spsr()`/`spsr_mut()` accessors
used by machine.rs are not among the sources. -/
structure Mach where
  regs : Fin 16 → Nat
  cpsr : Nat
  spsr : Nat
  mem : Nat → Nat
  remote : Nat → Nat
  arch_version : Nat
  mark : Nat

/-- machine.rs `Machine::default()` (with zeroed memory and host bytes). -/
def Mach.default : Mach where
  regs := fun _ => 0
  cpsr := defaultCPSR
  spsr := 0
  mem := fun _ => 0
  remote := fun _ => 0
  arch_version := 7
  mark := 0

/-- Register-file update (`self.cpu.regs[i] = v`). -/
def Mach.setReg (m : Mach) (r : Fin 16) (v : Nat) : Mach :=
  { m with regs := fun j => if j = r then v else m.regs j }

/-- machine.rs `Machine::condition_passed`.  `cond` is the
`ConditionCode` discriminant, the 4-bit ARM condition code
(EQ = 0, ..., AL = 0b1110). -/
def condition_passed (cpsr : Nat) (cond : Nat) : Bool :=
  let apsr := apsrView cpsr
  let result :=
    match cond >>> 1 &&& 0b111 with
    | 0 => getFlag apsr 30
    | 1 => getFlag apsr 29
    | 2 => getFlag apsr 31
    | 3 => getFlag apsr 28
    | 4 => getFlag apsr 29 && (getFlag apsr 30 == false)
    | 5 => getFlag apsr 31 == getFlag apsr 28
    | 6 => (getFlag apsr 31 == getFlag apsr 28) && (getFlag apsr 30 == false)
    | _ => true
  if cond &&& 1 = 1 ∧ cond ≠ 0b1111 then !result else result

/-- The claim's (spec §4.7) description of condition evaluation: the
high three bits select a predicate over N/Z/C/V, the low bit negates,
except codes 0b1110 and 0b1111 always yield true. -/
def condition_spec (cpsr : Nat) (cond : Nat) : Bool :=
  if cond = 0b1110 ∨ cond = 0b1111 then true
  else
    let N := getFlag cpsr 31
    let Z := getFlag cpsr 30
    let C := getFlag cpsr 29
    let V := getFlag cpsr 28
    let p :=
      match cond >>> 1 with
      | 0 => Z
      | 1 => C
      | 2 => N
      | 3 => V
      | 4 => C && !Z
      | 5 => N == V
      | 6 => (N == V) && !Z
      | _ => true
    if cond &&& 1 = 1 then !p else p

/-- arithmetic.rs `Machine::shift_c` over the local `Shift` enum (the
register variants read `self.cpu.regs`). -/
def Mach.shift_c (m : Mach) (value : Nat) (s : Shift) (carry_in : Bool) :
    Nat × Bool :=
  match s with
  | .LogicLeft amount => logic_left_c value amount
  | .LogicRight amount => logic_right_c value amount
  | .ArithRight amount => arith_right_c value amount
  | .RotateRight amount => rotate_right_c value amount
  | .RotateRightExtend => rotate_right_extend_c value carry_in
  | .RegLogicLeft i => logic_left_c value (m.regs i)
  | .RegLogicRight i => logic_right_c value (m.regs i)
  | .RegArithRight i => arith_right_c value (m.regs i)
  | .RegRotateRight i => rotate_right_c value (m.regs i)

/-- The `ShiftStyle` enum of the decoder crate (yaxpeax_arm), as matched
by executor.rs and machine.rs. -/
inductive ShiftStyle | LSL | LSR | ASR | ROR
  deriving DecidableEq

/-- Modelled from the spec: executor.rs and machine.rs call free
functions `shift_c`/`shift` over `ShiftStyle`, whose definition is not
among the sources (arithmetic.rs only has the `Machine` methods over
the local `Shift` enum, which ignore `self` for the immediate forms).
Per §4.1 each style maps to its primitive, and ROR with amount 0 stands
for RRX (the executor's RRX arm calls `shift_c(m, ShiftStyle::ROR, 0,
carry)`). -/
def shift_c_style (value : Nat) (style : ShiftStyle) (amount : Nat)
    (carry_in : Bool) : Nat × Bool :=
  match style with
  | .LSL => logic_left_c value amount
  | .LSR => logic_right_c value amount
  | .ASR => arith_right_c value amount
  | .ROR =>
    if amount = 0 then rotate_right_extend_c value carry_in
    else rotate_right_c value amount

/- ------------------------------------------------------------------
memory.rs
------------------------------------------------------------------ -/

/-- memory.rs `INTERNAL_SIZE`: 100 KiB of local RAM. -/
def INTERNAL_SIZE : Nat := 102400

/-- memory.rs `EXTERNAL_SIZE`: 1 MiB served by the remote protocol. -/
def EXTERNAL_SIZE : Nat := 1048576

/-- memory.rs `Memory::size()`. -/
def memSize : Nat := INTERNAL_SIZE + EXTERNAL_SIZE

/-- vmerror.rs `VMError`, extended with the two Rust panic forms the
interpreter can hit (`unimplemented!()`/`todo!()` and
`unreachable!()`), which escape the `Result` type in the source. -/
inductive VMError
  | busError
  | fmtError
  | nonBlockError
  | unimplementedPanic
  | unreachablePanic
  deriving DecidableEq

/-- memory.rs `Machine::read_memory`.  Local bytes come from the array;
the remote range sends a READ_MEMORY frame and takes the response byte
(modelled by the `remote` store, protocol success assumed — the framing
itself is verified separately below). -/
def Mach.read_memory (m : Mach) (address : Nat) : Except VMError Nat :=
  if address ≥ memSize then .error .busError
  else if address < INTERNAL_SIZE then .ok (m.mem address)
  else .ok (m.remote (address - INTERNAL_SIZE))

/-- memory.rs `Machine::write_memory`.  The remote range hits
`unimplemented!()`. -/
def Mach.write_memory (m : Mach) (address : Nat) (bit : Nat) :
    Except VMError Mach :=
  if address ≥ memSize then .error .busError
  else if address < INTERNAL_SIZE then
    .ok { m with mem := fun a => if a = address then bit else m.mem a }
  else .error .unimplementedPanic

/-- memory.rs `Machine::read_memory_word`: four byte reads at
`address + i`, little-endian. -/
def Mach.read_memory_word (m : Mach) (address : Nat) : Except VMError Nat := do
  let b0 ← m.read_memory address
  let b1 ← m.read_memory (wadd address 1)
  let b2 ← m.read_memory (wadd address 2)
  let b3 ← m.read_memory (wadd address 3)
  return b0 ||| (b1 <<< 8) ||| (b2 <<< 16) ||| (b3 <<< 24)

/-- memory.rs `Machine::write_memory_word`: four byte writes,
little-endian. -/
def Mach.write_memory_word (m : Mach) (address : Nat) (word : Nat) :
    Except VMError Mach := do
  let m ← m.write_memory address (word % 256)
  let m ← m.write_memory (wadd address 1) (word / 256 % 256)
  let m ← m.write_memory (wadd address 2) (word / 65536 % 256)
  m.write_memory (wadd address 3) (word / 16777216 % 256)

/-- memory.rs `Machine::write_memory_halfword`. -/
def Mach.write_memory_halfword (m : Mach) (address : Nat) (halfword : Nat) :
    Except VMError Mach := do
  let m ← m.write_memory address (halfword % 256)
  m.write_memory (wadd address 1) (halfword / 256 % 256)

/-- memory.rs `Machine::read_memory_halfword`. -/
def Mach.read_memory_halfword (m : Mach) (address : Nat) :
    Except VMError Nat := do
  let b0 ← m.read_memory address
  let b1 ← m.read_memory (wadd address 1)
  return b0 ||| (b1 <<< 8)

/- ------------------------------------------------------------------
Operands (the yaxpeax_arm `Operand` enum as used by machine.rs and
executor.rs)
------------------------------------------------------------------ -/

/-- The decoder crate's `RegShift` payload: either register shifted by
immediate or register shifted by register. -/
inductive RegShiftPayload
  | regImm (stype : ShiftStyle) (imm : Nat) (shiftee : Fin 16)
  | regReg (stype : ShiftStyle) (shiftee : Fin 16) (shifter : Fin 16)
  deriving DecidableEq

/-- The decoder crate's `Operand` enum, restricted to the variants the
sources match on.  Register numbers are in range (`Fin 16`); immediate
payloads are the documented widths, held as `Nat`/`Int`. -/
inductive Operand
  | Imm32 (value : Nat)
  | Imm12 (value : Nat)
  | Reg (reg : Fin 16)
  | RegShift (rs : RegShiftPayload)
  | BranchOffset (value : Int)
  | BranchThumbOffset (value : Int)
  | RegWBack (reg : Fin 16) (wback : Bool)
  | RegList (registers : Nat)
  | RegDeref (reg : Fin 16)
  | RegDerefPostindexOffset (reg : Fin 16) (offset : Nat) (add wback : Bool)
  | RegDerefPostindexReg (reg reg2 : Fin 16) (add wback : Bool)
  | RegDerefPostindexRegShift (reg : Fin 16) (rs : RegShiftPayload)
      (add wback : Bool)
  | RegDerefPreindexOffset (reg : Fin 16) (offset : Nat) (add wback : Bool)
  | RegDerefPreindexReg (reg reg2 : Fin 16) (add wback : Bool)
  | RegDerefPreindexRegShift (reg : Fin 16) (rs : RegShiftPayload)
      (add wback : Bool)
  | APSR
  | CPSR
  | SPSR
  | StatusRegMask (srm : Nat)
  | Nothing
  deriving DecidableEq

/- ------------------------------------------------------------------
machine.rs: instruction-set state and PC writes
------------------------------------------------------------------ -/

/-- cpu.rs `Machine::current_instr_set`: decode the (J, T) pair,
CPSR bits 24 and 5. -/
def Mach.current_instr_set (m : Mach) : InstrSet :=
  match (if m.cpsr.testBit 24 then 2 else 0) + (if m.cpsr.testBit 5 then 1 else 0) with
  | 0 => .Arm
  | 1 => .Thumb
  | 2 => .Jazelle
  | _ => .ThumbEE

/-- cpu.rs `Machine::select_instr_set` via `ISetRegisterMut::set_value`:
write J (bit 24) and T (bit 5). -/
def Mach.select_instr_set (m : Mach) (iset : InstrSet) : Mach :=
  let value : Nat :=
    match iset with
    | .Arm => 0
    | .Thumb => 1
    | .Jazelle => 2
    | .ThumbEE => 3
  let cpsr2 := setBit32 (setBit32 m.cpsr 24 (decide (value >>> 1 &&& 1 = 1)))
    5 (decide (value &&& 1 = 1))
  { m with cpsr := cpsr2 }

/-- machine.rs `Machine::branch_to`. -/
def Mach.branch_to (m : Mach) (address : Nat) : Mach :=
  m.setReg 15 address

/-- machine.rs `Machine::branch_write_pc`: branch without switching the
instruction set.  The Jazelle state hits `unimplemented!()`. -/
def Mach.branch_write_pc (m : Mach) (address : Nat) : Except VMError Mach :=
  match m.current_instr_set with
  | .Arm => .ok (m.branch_to (address &&& (U32LIM - 4)))
  | .Jazelle => .error .unimplementedPanic
  | _ => .ok (m.branch_to (address &&& (U32LIM - 2)))

/-- machine.rs `Machine::bw_write_pc`: branch, possibly switching
between ARM and Thumb based on the low target bits. -/
def Mach.bw_write_pc (m : Mach) (address : Nat) : Except VMError Mach :=
  match m.current_instr_set with
  | .ThumbEE => .error .unimplementedPanic
  | _ =>
    if address &&& 1 = 1 then
      .ok ((m.select_instr_set .Thumb).branch_to (address &&& (U32LIM - 2)))
    else if address >>> 1 &&& 1 = 0 then
      .ok ((m.select_instr_set .Arm).branch_to address)
    else .ok m

/-- machine.rs `Machine::alu_write_pc`. -/
def Mach.alu_write_pc (m : Mach) (address : Nat) : Except VMError Mach :=
  if m.arch_version ≥ 7 ∧ m.current_instr_set = .Arm then
    m.bw_write_pc address
  else m.branch_write_pc address

/-- machine.rs `Machine::load_write_pc`. -/
def Mach.load_write_pc (m : Mach) (address : Nat) : Except VMError Mach :=
  if m.arch_version ≥ 5 then m.bw_write_pc address
  else m.branch_write_pc address

/- ------------------------------------------------------------------
machine.rs: operand I/O
------------------------------------------------------------------ -/

/-- machine.rs `Machine::read`, `Operand::RegShift` arm: shift the
shiftee by the immediate or by the shifter register, under the current
APSR carry (this is the free `shift_c` call; see `shift_c_style`). -/
def Mach.readRegShiftC (m : Mach) (rs : RegShiftPayload) : Nat × Bool :=
  match rs with
  | .regImm stype imm shiftee =>
    shift_c_style (m.regs shiftee) stype imm (getFlag (apsrView m.cpsr) 29)
  | .regReg stype shiftee shifter =>
    shift_c_style (m.regs shiftee) stype (m.regs shifter)
      (getFlag (apsrView m.cpsr) 29)

/-- machine.rs `Machine::read_address`: the effective address of a
memory operand.  Non-memory operands hit `unreachable!()`. -/
def Mach.read_address (m : Mach) (operand : Operand) : Except VMError Nat :=
  match operand with
  | .RegDeref reg => .ok (m.regs reg)
  | .RegDerefPostindexOffset reg _ _ _ => .ok (m.regs reg)
  | .RegDerefPostindexReg reg _ _ _ => .ok (m.regs reg)
  | .RegDerefPostindexRegShift reg _ _ _ => .ok (m.regs reg)
  | .RegDerefPreindexOffset reg offset add _ =>
    .ok (if add then wadd (m.regs reg) offset else wsub (m.regs reg) offset)
  | .RegDerefPreindexReg reg reg2 add _ =>
    .ok (if add then wadd (m.regs reg) (m.regs reg2)
         else wsub (m.regs reg) (m.regs reg2))
  | .RegDerefPreindexRegShift reg rs add _ =>
    let b := (m.readRegShiftC rs).1
    .ok (if add then wadd (m.regs reg) b else wsub (m.regs reg) b)
  | _ => .error .unreachablePanic

/-- machine.rs `Machine::read`.  Branch offsets are i32 values shifted
left and reinterpreted as u32; memory operands read a word at the
effective address; the catch-all arm is `unimplemented!()`. -/
def Mach.read (m : Mach) (operand : Operand) : Except VMError Nat :=
  match operand with
  | .Imm32 value => .ok value
  | .Imm12 value => .ok value
  | .Reg reg => .ok (m.regs reg)
  | .RegShift rs => .ok (m.readRegShiftC rs).1
  | .BranchOffset value => .ok (intToU32 ((value - 1) * 4))
  | .BranchThumbOffset value => .ok (intToU32 ((value - 1) * 2))
  | .RegWBack reg _ => .ok (m.regs reg)
  | .RegList registers => .ok registers
  | .RegDeref _ | .RegDerefPostindexOffset _ _ _ _
  | .RegDerefPostindexReg _ _ _ _ | .RegDerefPostindexRegShift _ _ _ _
  | .RegDerefPreindexOffset _ _ _ _ | .RegDerefPreindexReg _ _ _ _
  | .RegDerefPreindexRegShift _ _ _ _ => do
    let a ← m.read_address operand
    m.read_memory_word a
  | .APSR => .ok (apsrView m.cpsr)
  | .CPSR => .ok m.cpsr
  | .SPSR => .ok m.spsr
  | _ => .error .unimplementedPanic

/-- The per-bit copy loops of machine.rs's `StatusRegMask` arm
(`for i in lo..hi { dst.set(i, value[i]) }`). -/
def copyBits (dst src : Nat) : List Nat → Nat
  | [] => dst
  | i :: rest => copyBits (setBit32 dst i (src.testBit i)) src rest

/-- machine.rs `Machine::write`, `Operand::StatusRegMask` arm.  The
discriminant's bit 4 selects SPSR; the low four bits are the f/s/x/c
field mask.  In the CPSR branch the source fixes
`is_excpt_return = privileged = nmfi = false`. -/
def writeStatusRegMask (m : Mach) (srm : Nat) (value : Nat) : Mach :=
  let write_spsr := srm >>> 4 = 1
  let mask := srm &&& 0xf
  if write_spsr then
    let s0 := m.spsr
    let s1 := if mask >>> 3 &&& 1 = 1 then copyBits s0 value (List.range' 24 8)
              else s0
    let s2 := if mask >>> 2 &&& 1 = 1 then copyBits s1 value (List.range' 16 4)
              else s1
    let s3 := if mask >>> 1 &&& 1 = 1 then copyBits s2 value (List.range' 8 8)
              else s2
    let s4 := if mask &&& 1 = 1 then
                copyBits (copyBits s3 value (List.range' 5 3)) value
                  (List.range' 0 5)
              else s3
    { m with spsr := s4 }
  else
    let is_excpt_return : Bool := false
    let privileged : Bool := false
    let nmfi : Bool := false
    let c0 := m.cpsr
    let c1 := if mask >>> 3 &&& 1 = 1 then
                let t := copyBits c0 value (List.range' 27 5)
                if is_excpt_return then copyBits t value (List.range' 24 3)
                else t
              else c0
    let c2 := if mask >>> 2 &&& 1 = 1 then copyBits c1 value (List.range' 16 4)
              else c1
    let c3 := if mask >>> 1 &&& 1 = 1 then
                let t := if is_excpt_return then
                           copyBits c2 value (List.range' 10 6)
                         else c2
                let t := setBit32 t 9 (value.testBit 9)
                if privileged && false then setBit32 t 8 (value.testBit 8)
                else t
              else c2
    let c4 := if mask &&& 1 = 1 then
                let t := if privileged then setBit32 c3 7 (value.testBit 7)
                         else c3
                let t := if privileged && (!nmfi || value.testBit 6 == false)
                            && false then
                           setBit32 t 6 (value.testBit 6)
                         else t
                let t := if is_excpt_return then setBit32 t 5 (value.testBit 5)
                         else t
                if privileged then copyBits t value (List.range' 0 5) else t
              else c3
    { m with cpsr := c4 }

/-- machine.rs `Machine::write`.  The writeback arms recurse through
`self.write(Operand::Reg(reg), …)`, whose effect is the plain register
assignment of the first arm; the recursion is inlined here as `setReg`.
The catch-all arm does nothing and the function returns `Ok(())`. -/
def Mach.write (m : Mach) (operand : Operand) (value : Nat) :
    Except VMError Mach :=
  match operand with
  | .Reg reg => .ok (m.setReg reg value)
  | .RegWBack reg true => .ok (m.setReg reg value)
  | .RegDerefPostindexOffset reg offset add true =>
    if add then .ok (m.setReg reg (wadd value offset))
    else .ok (m.setReg reg (wsub value offset))
  | .RegDerefPostindexReg reg reg2 add true =>
    let b := m.regs reg2
    if add then .ok (m.setReg reg (wadd value b))
    else .ok (m.setReg reg (wsub value b))
  | .RegDerefPostindexRegShift reg rs add true => do
    let b ← m.read (.RegShift rs)
    if add then .ok (m.setReg reg (wadd value b))
    else .ok (m.setReg reg (wsub value b))
  | .RegDerefPreindexOffset reg _ _ true => .ok (m.setReg reg value)
  | .RegDerefPreindexReg reg _ _ true => .ok (m.setReg reg value)
  | .RegDerefPreindexRegShift reg _ _ true => .ok (m.setReg reg value)
  | .StatusRegMask srm => .ok (writeStatusRegMask m srm value)
  | _ => .ok m

/-- The operand shapes machine.rs `Machine::write` has no arm for: they
fall through to the catch-all `_ => {}`. -/
def Operand.unhandledByWrite : Operand → Bool
  | .Reg _ => false
  | .RegWBack _ wback => !wback
  | .RegDerefPostindexOffset _ _ _ wback => !wback
  | .RegDerefPostindexReg _ _ _ wback => !wback
  | .RegDerefPostindexRegShift _ _ _ wback => !wback
  | .RegDerefPreindexOffset _ _ _ wback => !wback
  | .RegDerefPreindexReg _ _ _ wback => !wback
  | .RegDerefPreindexRegShift _ _ _ wback => !wback
  | .StatusRegMask _ => false
  | _ => true

/- ------------------------------------------------------------------
protocol.rs
------------------------------------------------------------------ -/

/-- protocol.rs `ESCAPE_CHAR` (`b'\\'`). -/
def ESCAPE_CHAR : Nat := 92

/-- protocol.rs `FRAME_END`. -/
def FRAME_END : Nat := 255

/-- protocol.rs `Command`. -/
inductive Command
  | ReadMemory (address : Nat)
  | WriteMemory (address : Nat) (value : Nat)
  deriving DecidableEq

/-- protocol.rs `Command::head`. -/
def Command.head : Command → Nat
  | .ReadMemory _ => 1
  | .WriteMemory _ _ => 2

/-- `u32::to_le_bytes`. -/
def u32LeBytes (v : Nat) : List Nat :=
  [v % 256, v / 256 % 256, v / 65536 % 256, v / 16777216 % 256]

/-- protocol.rs `Command::data`: the little-endian payload. -/
def Command.data : Command → List Nat
  | .ReadMemory address => u32LeBytes address
  | .WriteMemory address value => u32LeBytes address ++ [value % 256]

/-- The escaping loop of protocol.rs `Command::send`: each payload byte
equal to `ESCAPE_CHAR` or `FRAME_END` is preceded by `ESCAPE_CHAR`. -/
def escapeBytes : List Nat → List Nat
  | [] => []
  | b :: rest =>
    (if b = ESCAPE_CHAR ∨ b = FRAME_END then [ESCAPE_CHAR, b] else [b])
      ++ escapeBytes rest

/-- protocol.rs `Command::send`, as the byte sequence written to the
serial stream after the `ensure_ready` handshake: header byte, escaped
payload, `FRAME_END` terminator. -/
def Command.sendBytes (c : Command) : List Nat :=
  c.head :: (escapeBytes c.data ++ [FRAME_END])

/-- The loop of protocol.rs `receive_data`, over a byte stream given as
a list: an unescaped `ESCAPE_CHAR` sets the escape flag, an unescaped
`FRAME_END` ends the frame, anything else is pushed.  A stream that
ends mid-frame blocks on `serial.read()`, modelled as `none`. -/
def receiveLoop : List Nat → Bool → List Nat → Option (List Nat)
  | [], _, _ => none
  | byte :: rest, escape, data =>
    if !escape && byte == ESCAPE_CHAR then receiveLoop rest true data
    else if !escape && byte == FRAME_END then some data
    else receiveLoop rest false (data ++ [byte])

/-- protocol.rs `receive_data`. -/
def receive_data (stream : List Nat) : Option (List Nat) :=
  receiveLoop stream false []

/- ------------------------------------------------------------------
executor.rs
------------------------------------------------------------------ -/

/-- The opcodes of executor.rs covered by this embedding: the two
unconditional ones (BKPT, CBNZ/CBZ), the full data-processing family,
the compare/test family, B, NOP, and SVC as a representative of the
`unimplemented!()` opcodes. -/
inductive Opcode
  | BKPT | CBNZ | CBZ
  | ADC | ADD | AND | ASR | BIC | EOR | LSL | LSR | MOV | MUL | MVN
  | ORN | ORR | ROR | RRX | RSB | RSC | SBC | SUB
  | CMN | CMP | TST | TEQ
  | B | NOP | SVC
  deriving DecidableEq

/-- The decoder crate's `Instruction` record as used by executor.rs:
opcode, condition code, S bit and four operand slots. -/
structure Instruction where
  opcode : Opcode
  condition : Nat
  s : Bool
  operands : Fin 4 → Operand

/-- executor.rs, data-processing arms: the four APSR flag writes
performed when `inst.s` is set (note the source sets
`apsr.set_z(result != 0)`). -/
def Mach.setFlagsNZCV (m : Mach) (result : Nat) (carry overflow : Bool) :
    Mach :=
  let cpsr2 :=
    setBit32 (setBit32 (setBit32 (setBit32 m.cpsr
      31 (decide (result >>> 31 &&& 1 = 1)))
      30 (decide (result ≠ 0)))
      29 carry)
      28 overflow
  { m with cpsr := cpsr2 }

/-- executor.rs: the data-processing family
(`Opcode::ADC | ADD | ... | SUB` arm of `execute`). -/
def Mach.executeDP (m : Mach) (inst : Instruction) : Except VMError Mach := do
  let (d, nOp, mOp) :=
    match inst.operands 2 with
    | .Nothing => (inst.operands 0, inst.operands 0, inst.operands 1)
    | _ => (inst.operands 0, inst.operands 1, inst.operands 2)
  let n ← m.read nOp
  let mv ← m.read mOp
  let apsrC := getFlag (apsrView m.cpsr) 29
  let apsrV := getFlag (apsrView m.cpsr) 28
  let rco : Except VMError (Nat × Bool × Bool) :=
    match inst.opcode with
    | .ADC => .ok (add_with_carry n mv apsrC)
    | .ADD => .ok (add_with_carry n mv false)
    | .AND => .ok (n &&& mv, false, apsrV)
    | .ASR =>
      let (result, carry) := shift_c_style n .ASR (mv &&& 0xff) apsrC
      .ok (result, carry, apsrV)
    | .BIC => .ok (n &&& unot mv, false, apsrV)
    | .EOR => .ok ((n ^^^ mv) % U32LIM, false, apsrV)
    | .LSL =>
      let (result, carry) := shift_c_style n .LSL (mv &&& 0xff) apsrC
      .ok (result, carry, apsrV)
    | .LSR =>
      let (result, carry) := shift_c_style n .LSR (mv &&& 0xff) apsrC
      .ok (result, carry, apsrV)
    | .MOV => .ok (mv, false, apsrV)
    | .MUL => .ok ((n * mv) % U32LIM, apsrC, apsrV)
    | .MVN => .ok (unot mv, false, apsrV)
    | .ORN => .ok (n ||| unot mv, false, apsrV)
    | .ORR => .ok ((n ||| mv) % U32LIM, false, apsrV)
    | .ROR =>
      let (result, carry) := shift_c_style n .ROR (mv &&& 0xff) apsrC
      .ok (result, carry, apsrV)
    | .RRX =>
      let (result, carry) := shift_c_style mv .ROR 0 apsrC
      .ok (result, carry, apsrV)
    | .RSB => .ok (add_with_carry (unot n) mv false)
    | .RSC => .ok (add_with_carry (unot n) mv apsrC)
    | .SBC => .ok (add_with_carry n (unot mv) apsrC)
    | .SUB => .ok (add_with_carry n (unot mv) true)
    | _ => .error .unreachablePanic
  let (result, carry, overflow) ← rco
  match d with
  | .Reg reg => do
    let m2 ←
      if (reg : Nat) = 15 then m.alu_write_pc result
      else m.write d result
    if inst.s then .ok (m2.setFlagsNZCV result carry overflow)
    else .ok m2
  | _ => .error .unreachablePanic

/-- executor.rs, `Opcode::CMN | CMP` arm: always writes the flags. -/
def Mach.executeCM (m : Mach) (inst : Instruction) : Except VMError Mach := do
  let n ← m.read (inst.operands 0)
  let mv ← m.read (inst.operands 1)
  let rco : Except VMError (Nat × Bool × Bool) :=
    match inst.opcode with
    | .CMN => .ok (add_with_carry n mv false)
    | .CMP => .ok (add_with_carry n (unot mv) true)
    | _ => .error .unreachablePanic
  let (result, carry, overflow) ← rco
  .ok (m.setFlagsNZCV result carry overflow)

/-- executor.rs, `Opcode::TST`/`Opcode::TEQ` arms: write N, Z (as
`result != 0`) and clear C. -/
def Mach.executeTstTeq (m : Mach) (inst : Instruction) (isTst : Bool) :
    Except VMError Mach := do
  let n ← m.read (inst.operands 0)
  let mv ← m.read (inst.operands 1)
  let result := if isTst then n &&& mv else (n ^^^ mv) % U32LIM
  let cpsr2 :=
    setBit32 (setBit32 (setBit32 m.cpsr
      31 (decide (result >>> 31 &&& 1 = 1)))
      30 (decide (result ≠ 0)))
      29 false
  .ok { m with cpsr := cpsr2 }

/-- executor.rs, `Opcode::CBNZ | CBZ` arm: executed before the
condition gate; branches when (non)zero as encoded. -/
def Mach.executeCB (m : Mach) (inst : Instruction) : Except VMError Mach := do
  let nonzero := decide (inst.opcode = .CBNZ)
  let n ← m.read (inst.operands 0)
  let mv ← m.read (inst.operands 1)
  if nonzero != decide (n = 0) then
    m.branch_write_pc (wadd (m.regs 15) mv)
  else .ok m

/-- executor.rs: the post-gate opcode dispatch (the second `match` of
`execute`; BKPT and CBNZ/CBZ are `unreachable!()` there, SVC is
`unimplemented!()`). -/
def Mach.executeMain (m : Mach) (inst : Instruction) : Except VMError Mach :=
  match inst.opcode with
  | .ADC | .ADD | .AND | .ASR | .BIC | .EOR | .LSL | .LSR | .MOV | .MUL
  | .MVN | .ORN | .ORR | .ROR | .RRX | .RSB | .RSC | .SBC | .SUB =>
    m.executeDP inst
  | .B => do
    let imm32 ← m.read (inst.operands 0)
    m.branch_write_pc (wadd (m.regs 15) imm32)
  | .BKPT => .error .unreachablePanic
  | .CBNZ | .CBZ => .error .unreachablePanic
  | .CMN | .CMP => m.executeCM inst
  | .TST => m.executeTstTeq inst true
  | .TEQ => m.executeTstTeq inst false
  | .NOP => .ok m
  | .SVC => .error .unimplementedPanic

/-- executor.rs `Machine::execute`: BKPT and CBNZ/CBZ run before the
condition gate; every other opcode is skipped (returning `Ok(())`
without touching the state) when `condition_passed` fails. -/
def Mach.execute (m : Mach) (inst : Instruction) : Except VMError Mach :=
  match inst.opcode with
  | .BKPT => .ok m
  | .CBNZ | .CBZ => m.executeCB inst
  | _ =>
    if !condition_passed m.cpsr inst.condition then .ok m
    else m.executeMain inst

/-- Test vector: `ADDS R0, R1, R2` (condition AL, S set), as decoded
from the ARM encoding. -/
def instrADDS : Instruction where
  opcode := .ADD
  condition := 14
  s := true
  operands := fun i =>
    match i with
    | 0 => .Reg 0
    | 1 => .Reg 1
    | 2 => .Reg 2
    | 3 => .Nothing

/-- Test vector: an SVC instruction (an `unimplemented!()` opcode in
executor.rs) with condition EQ. -/
def instrSVC : Instruction where
  opcode := .SVC
  condition := 0
  s := false
  operands := fun _ => .Nothing

/- ==================================================================
Theorems
================================================================== -/

/-- One `bitfield` bit write only changes the addressed bit. -/
theorem testBit_setBit32 (x i : Nat) (b : Bool) (j : Nat) (hj : j < 32)
    (hi : i < 32) :
    (setBit32 x i b).testBit j = if j = i then b else x.testBit j := by
  have hmask : ∀ k, Nat.testBit (U32LIM - 1) k = decide (k < 32) := by
    intro k
    have h32 : (U32LIM - 1 : Nat) = 2 ^ 32 - 1 := by norm_num [U32LIM]
    rw [h32, Nat.testBit_two_pow_sub_one]
  unfold setBit32
  cases b with
  | true =>
    simp only [if_pos, Nat.testBit_or, Nat.shiftLeft_eq, Nat.one_mul,
      Nat.testBit_two_pow]
    by_cases h : j = i
    · simp [h]
    · have h2 : i ≠ j := fun hij => h hij.symm
      simp [h, h2]
  | false =>
    simp only [if_neg, Nat.testBit_and, Nat.testBit_xor, Nat.shiftLeft_eq,
      Nat.one_mul, hmask, Nat.testBit_two_pow]
    by_cases h : j = i
    · simp [h, hi, hmask]
    · have h2 : i ≠ j := fun hij => h hij.symm
      simp [h, h2, hj, hmask]

/-- A bit outside the copied window is untouched by `copyBits`. -/
theorem testBit_copyBits_notMem (src : Nat) (l : List Nat) (j : Nat)
    (hj : j < 32) (hl : ∀ i ∈ l, i < 32) (hnot : j ∉ l) :
    ∀ dst, (copyBits dst src l).testBit j = dst.testBit j := by
  induction l with
  | nil => intro dst; rfl
  | cons i rest ih =>
    intro dst
    have hji : j ≠ i := fun h => hnot (h ▸ List.mem_cons_self i rest)
    rw [copyBits, ih (fun k hk => hl k (List.mem_cons_of_mem i hk))
      (fun h => hnot (List.mem_cons_of_mem i h)),
      testBit_setBit32 _ _ _ _ hj (hl i (List.mem_cons_self i rest)),
      if_neg hji]

/-- C1.  The claim demands the textbook semantics of
`add_with_carry(x, y, c)`: result `(x + y + c) mod 2^32`, carry iff
`x + y + c ≥ 2^32`, overflow iff the signed sum leaves `[-2^31, 2^31)`.
The source instead masks bit 31 off the wrapped sum before comparing.
At `x = 2^31, y = 0, c = 0` (no u32 or i32 overflow occurs, so debug
and release builds agree) the code yields result `0`, carry `true`,
overflow `true`, where the claim demands `(2^31, false, false)`. -/
theorem claim_C1_add_with_carry_bug_eval :
    add_with_carry 2147483648 0 false = (0, true, true) ∧
      (2147483648 + 0 + 0) % U32LIM = 2147483648 := by decide

/-- C5.  The claim says both `read_memory` and `write_memory` serve
`L_local ≤ a < L_local + L_remote` via the remote protocol, returning
normally on protocol success.  Reads do (first conjunct), but
memory.rs's `write_memory` hits `unimplemented!()` for every remote
address (second conjunct, at the first remote address
`a = INTERNAL_SIZE = 102400`), so no remote write is ever served. -/
theorem claim_C5_remote_write_unimplemented_eval :
    Mach.default.read_memory 102400 = .ok 0 ∧
      Mach.default.write_memory 102400 0 = .error VMError.unimplementedPanic := by
  constructor <;> rfl

/-- C6.  The claim says the LSL primitive preserves the carry when the
amount is 0: the pair is `(v, unchanged_carry)`.  arithmetic.rs's
`logic_left_c` has no carry input at all and its `shift == 0` arm
returns `(value, false)`; `Machine::shift_c`, which does receive the
carry-in, forwards `LogicLeft` to it without the amount-0 special case
of the ARM pseudocode it cites.  With carry-in `true` the code yields
`(7, false)` where the claim demands `(7, true)`.  (The n ≥ 1 half of
the claim does hold; only the n = 0 carry is wrong.) -/
theorem claim_C6_lsl_zero_carry_cleared_eval :
    Shift.decode 0 0 = some (Shift.LogicLeft 0) ∧
      Mach.default.shift_c 7 (Shift.LogicLeft 0) true = (7, false) := by
  constructor <;> rfl

/-- C7.  The claim says LSR decoded from `imm5 = 0` has amount 32 (true,
first conjunct) and that `LSR(v, 32) = 0` without faulting.  But
`logic_right_c` computes `value >> 32`, a Rust shift-amount overflow:
it panics under debug assertions, and in release mode the amount is
masked to 0, returning `v` itself.  At `v = 2^31` the code yields
`(2^31, true)` where the claim demands `(0, true)` (second conjunct
shows the release behaviour). -/
theorem claim_C7_lsr32_overflow_eval :
    Shift.decode 1 0 = some (Shift.LogicRight 32) ∧
      logic_right_c 2147483648 32 = (2147483648, true) := by
  constructor <;> rfl

/-- C3.  `condition_passed` agrees with the spec's table on every 4-bit
condition code and every CPSR: the high three bits select
EQ=Z, CS=C, MI=N, VS=V, HI=C∧¬Z, GE=(N=V), GT=(N=V)∧¬Z, AL=true, and
the low bit negates except for codes 0b1110 and 0b1111. -/
theorem claim_C3_condition_passed_matches_spec (cpsr cond : Nat)
    (h : cond < 16) :
    condition_passed cpsr cond = condition_spec cpsr cond := by
  interval_cases cond <;>
    simp only [condition_passed, condition_spec, getFlag, apsrView] <;>
    norm_num <;>
    cases h31 : cpsr.testBit 31 <;> cases h30 : cpsr.testBit 30 <;>
      cases h29 : cpsr.testBit 29 <;> cases h28 : cpsr.testBit 28 <;>
    simp [h31, h30, h29, h28, Nat.testBit_and] <;> decide

/-- Witness for C3 at condition code 10 (GE) and a CPSR with N set. -/
theorem claim_C3_witness :
    10 < 16 ∧ condition_passed 2147483648 10 = condition_spec 2147483648 10 :=
  ⟨by decide, claim_C3_condition_passed_matches_spec 2147483648 10 (by decide)⟩

/-- C2.  The claim says a data-processing instruction with a passing
condition, S = 1 and destination ≠ R15 leaves
N = bit31(result), Z = (result == 0), C = carry, V = overflow.
executor.rs instead writes `apsr.set_z(result != 0)`.  Executing
`ADDS R0, R1, R2` (condition AL, S = 1, d = R0) on the default machine
(all registers 0) gives result 0 written to R0, yet Z comes out
`false` where the claim demands `true`.  N, C and V agree with the
claim at this input. -/
theorem claim_C2_zflag_bug_eval :
    (Mach.default.execute instrADDS).map
        (fun m2 => (m2.regs 0, getFlag (apsrView m2.cpsr) 30)) =
      .ok (0, false) := by
  rfl

/-- C4.  Any instruction whose condition fails `condition_passed` is
skipped by `execute`: the result is `Ok` and the machine state is
returned unchanged (PC was already advanced by fetch, which is not part
of `execute`).  CBNZ/CBZ run before the gate, but the decoder emits
them (Thumb-only, never condition-gated) with condition AL = 14, which
never fails — that decoder fact is the hypothesis `hcb`. -/
theorem claim_C4_condition_fail_no_state_change (m : Mach)
    (inst : Instruction)
    (hcb : inst.opcode = Opcode.CBNZ ∨ inst.opcode = Opcode.CBZ →
      inst.condition = 14)
    (hfail : condition_passed m.cpsr inst.condition = false) :
    m.execute inst = .ok m := by
  have hAL : condition_passed m.cpsr 14 = true := rfl
  rcases Decidable.em
      (inst.opcode = Opcode.CBNZ ∨ inst.opcode = Opcode.CBZ) with hCB | hCB
  · rw [hcb hCB, hAL] at hfail
    exact absurd hfail (by simp)
  · push_neg at hCB
    obtain ⟨hc1, hc2⟩ := hCB
    cases hop : inst.opcode <;> simp_all [Mach.execute]

/-- Witness for C4: the gated SVC instruction (which would hit
`unimplemented!()` if executed) with condition EQ on the default
machine, whose Z flag is clear, leaves the machine untouched. -/
theorem claim_C4_witness :
    Mach.default.execute instrSVC = .ok Mach.default :=
  claim_C4_condition_fail_no_state_change Mach.default instrSVC
    (by decide) (by decide)

/-- The unescaping loop of `receive_data` inverts the escaping loop of
`Command::send`, for any accumulated prefix. -/
theorem receiveLoop_escapeBytes (p : List Nat) :
    ∀ acc, receiveLoop (escapeBytes p ++ [FRAME_END]) false acc =
      some (acc ++ p) := by
  induction p with
  | nil =>
    intro acc
    simp [escapeBytes, receiveLoop]
    decide
  | cons b rest ih =>
    intro acc
    by_cases hb : b = ESCAPE_CHAR ∨ b = FRAME_END
    · simp [escapeBytes, hb, receiveLoop, ih]
    · push_neg at hb
      have hb1 : (b == ESCAPE_CHAR) = false := by simp [hb.1]
      have hb2 : (b == FRAME_END) = false := by simp [hb.2]
      simp [escapeBytes, hb.1, hb.2, receiveLoop, hb1, hb2, ih]

/-- C8.  Feeding the post-handshake byte stream emitted by
`Command::send` (header, escaped payload, `FRAME_END`) into the
`receive_data` decoder returns exactly the header byte followed by the
original payload: encode-then-decode is the identity on framed data,
for both commands and any payload values. -/
theorem claim_C8_protocol_roundtrip (c : Command) :
    receive_data c.sendBytes = some (c.head :: c.data) := by
  have e1 : ((1 : Nat) == ESCAPE_CHAR) = false := rfl
  have e1f : ((1 : Nat) == FRAME_END) = false := rfl
  have e2 : ((2 : Nat) == ESCAPE_CHAR) = false := rfl
  have e2f : ((2 : Nat) == FRAME_END) = false := rfl
  cases c <;>
    simp [receive_data, Command.sendBytes, Command.head, receiveLoop,
      e1, e1f, e2, e2f, receiveLoop_escapeBytes]

/-- C9.  Every operand shape `Machine::write` has no arm for — plain
immediates, register lists, branch offsets, `Nothing`, `RegWBack` with
writeback clear, plain `RegDeref`, any pre/post-indexed memory operand
with writeback clear, and the status-register views — falls through to
the catch-all: `write` returns `Ok(())` and the machine is unchanged;
no error is ever reported for an unwritable operand. -/
theorem claim_C9_write_unhandled_noop (m : Mach) (op : Operand) (v : Nat)
    (h : op.unhandledByWrite = true) :
    m.write op v = .ok m := by
  cases op with
  | Imm32 w => rfl
  | Imm12 w => rfl
  | Reg r => simp [Operand.unhandledByWrite] at h
  | RegShift rs => rfl
  | BranchOffset w => rfl
  | BranchThumbOffset w => rfl
  | RegWBack r w =>
    cases w with
    | false => rfl
    | true => simp [Operand.unhandledByWrite] at h
  | RegList r => rfl
  | RegDeref r => rfl
  | RegDerefPostindexOffset r o a w =>
    cases w with
    | false => rfl
    | true => simp [Operand.unhandledByWrite] at h
  | RegDerefPostindexReg r r2 a w =>
    cases w with
    | false => rfl
    | true => simp [Operand.unhandledByWrite] at h
  | RegDerefPostindexRegShift r rs a w =>
    cases w with
    | false => rfl
    | true => simp [Operand.unhandledByWrite] at h
  | RegDerefPreindexOffset r o a w =>
    cases w with
    | false => rfl
    | true => simp [Operand.unhandledByWrite] at h
  | RegDerefPreindexReg r r2 a w =>
    cases w with
    | false => rfl
    | true => simp [Operand.unhandledByWrite] at h
  | RegDerefPreindexRegShift r rs a w =>
    cases w with
    | false => rfl
    | true => simp [Operand.unhandledByWrite] at h
  | APSR => rfl
  | CPSR => rfl
  | SPSR => rfl
  | StatusRegMask srm => simp [Operand.unhandledByWrite] at h
  | Nothing => rfl

/-- Witness for C9: writing through an `Imm32` operand is a no-op. -/
theorem claim_C9_witness :
    Mach.default.write (Operand.Imm32 5) 7 = .ok Mach.default :=
  claim_C9_write_unhandled_noop Mach.default (Operand.Imm32 5) 7 rfl

/-- C10.  A `StatusRegMask` write that targets the CPSR (bit 4 of the
discriminant clear), for every field mask and value, leaves every CPSR
bit outside N/Z/C/V/Q (27–31), GE[3:0] (16–19) and E (9) unchanged —
in particular M[4:0], T, F, I, A, IT[7:2], J and IT[1:0] (the source
gates those on `is_excpt_return`/`privileged`, both fixed false). -/
theorem claim_C10_cpsr_protected_bits (m : Mach) (srm value j : Nat)
    (hspsr : srm >>> 4 ≠ 1) (hj : j < 32)
    (hprot : j ∉ ([9, 16, 17, 18, 19, 27, 28, 29, 30, 31] : List Nat)) :
    (writeStatusRegMask m srm value).cpsr.testBit j = m.cpsr.testBit j := by
  simp only [List.mem_cons, List.not_mem_nil, or_false, not_or] at hprot
  obtain ⟨h9, h16, h17, h18, h19, h27, h28, h29, h30, h31⟩ := hprot
  have e27 : List.range' 27 5 = [27, 28, 29, 30, 31] := rfl
  have e16 : List.range' 16 4 = [16, 17, 18, 19] := rfl
  have k27 : ∀ d, (copyBits d value (List.range' 27 5)).testBit j =
      d.testBit j :=
    testBit_copyBits_notMem value _ j hj (by decide)
      (by rw [e27]; simp [h27, h28, h29, h30, h31])
  have k16 : ∀ d, (copyBits d value (List.range' 16 4)).testBit j =
      d.testBit j :=
    testBit_copyBits_notMem value _ j hj (by decide)
      (by rw [e16]; simp [h16, h17, h18, h19])
  have s9 : ∀ d b, (setBit32 d 9 b).testBit j = d.testBit j := by
    intro d b
    rw [testBit_setBit32 d 9 b j hj (by decide), if_neg h9]
  simp only [writeStatusRegMask, hspsr, if_false, ite_false]
  simp [k27, k16, s9]
  split_ifs <;> simp [k27, k16, s9]

/-- Witness for C10: an MSR CPSR_f write of all-ones (mask 0b1000,
discriminant bit 4 clear) leaves the T bit (bit 5) unchanged. -/
theorem claim_C10_witness :
    (writeStatusRegMask Mach.default 8 4294967295).cpsr.testBit 5 =
      Mach.default.cpsr.testBit 5 :=
  claim_C10_cpsr_protected_bits Mach.default 8 4294967295 5
    (by decide) (by decide) (by decide)

end VM
